import Mathlib

/-!
Verification development for the BC7215 IR transceiver driver
(src/src/bc7215.cpp, src/src/bc7215.h).

The receive-side state machine `BC7215::processData`, the mode controller
(`setTx`, `setShutDown`, `isBusy`, `cmdCompleted`), the circular-buffer
accessors (`bufRead`, `bufBackRead`), the byte-stuffing codec
(`byteStuffingSend`) and the packet extraction functions (`getData`,
`getRaw`) are embedded as pure Lean functions over an explicit state record.

Machine integers are modelled as `Nat` with explicit `% 256` where the
C code uses `uint8_t` arithmetic that can wrap (`byteCount++`,
`lastWritingPos++`, `startPos = lastWritingPos + 1`).  The configuration is
the library default (`BC7215_MAX_RX_DATA_SIZE = 48`, `ENABLE_FORMAT = 1`),
so `BC7215_BUFFER_SIZE = (48 + 3) + (32 + 1) = 84` and all buffer
bookkeeping fields are `uint8_t` in the C source.
-/

set_option maxRecDepth 100000

namespace BC7215Model

/-- Library configuration default, part_006 (bc7215_lib_config.h): maximum
receive payload size in bytes. -/
def BC7215_MAX_RX_DATA_SIZE : Nat := 48

/-- Buffer capacity, bc7215.h line 42 (with `ENABLE_FORMAT = 1`):
`(BC7215_MAX_RX_DATA_SIZE + 3) + (32 + 1)` = 84. -/
def BC7215_BUFFER_SIZE : Nat := (BC7215_MAX_RX_DATA_SIZE + 3) + (32 + 1)

/-- `sizeof(bc7215FormatPkt_t)`: 1 signature byte + 32 format bytes. -/
def formatPktSize : Nat := 33

/-- Driver receive-side state: the `bc7215Status` bit flags, the circular
buffer and its bookkeeping positions (bc7215.h lines 347-391), together
with the `static uint8_t previousData` local of `processData`
(bc7215.cpp line 484).  The buffer is a total function; only indices
below `BC7215_BUFFER_SIZE` are ever written. -/
structure BCState where
  formatPktReady : Bool
  dataPktReady : Bool
  pktStarted : Bool
  overLap : Bool
  cmdComplete : Bool
  bitLen : Nat
  circularBuffer : Nat → Nat
  startPos : Nat
  datStartPos : Nat
  lastWritingPos : Nat
  datEndPos : Nat
  byteCount : Nat
  datCount : Nat
  previousData : Nat

/-- Quiescent starting state: all flags clear, all counters and positions
zero, buffer zeroed, `previousData = 0` (the C static initializer). -/
def initState : BCState :=
  { formatPktReady := false
    dataPktReady := false
    pktStarted := false
    overLap := false
    cmdComplete := false
    bitLen := 0
    circularBuffer := fun _ => 0
    startPos := 0
    datStartPos := 0
    lastWritingPos := 0
    datEndPos := 0
    byteCount := 0
    datCount := 0
    previousData := 0 }

/-- `BC7215::bufBackRead` (bc7215.cpp lines 197-211): read the byte `n`
positions before `pos`, wrapping backwards over the buffer. -/
def bufBackRead (buf : Nat → Nat) (pos n : Nat) : Nat :=
  if n ≤ pos then buf (pos - n) else buf (BC7215_BUFFER_SIZE + pos - n)

/-- `BC7215::bufRead` (bc7215.cpp lines 213-227): read the byte `n`
positions after `pos`, wrapping forwards over the buffer. -/
def bufRead (buf : Nat → Nat) (pos n : Nat) : Nat :=
  if BC7215_BUFFER_SIZE ≤ pos + n then buf (pos + n - BC7215_BUFFER_SIZE)
  else buf (pos + n)

/-- The `temp16` bit-length field read in `processData` (lines 516 and
525): most recent byte is the high byte, the byte before it the low byte. -/
def bitLenField (buf : Nat → Nat) (pos : Nat) : Nat :=
  bufBackRead buf pos 0 <<< 8 ||| bufBackRead buf pos 1

/-- The transmit-wiring test used throughout bc7215.cpp (lines 48, 67,
236, 251, 275, 489): `(modPin == -2) || ((modPin >= 0) &&
(digitalRead(modPin) == LOW))`.  `modLevel` is the electrical level a
real MOD pin reads (`true` = HIGH); `modPin = -2` is `MOD_LOW`,
`modPin = -1` is `MOD_HIGH`, `modPin ≥ 0` is a real GPIO. -/
def isTxWiring (modPin : Int) (modLevel : Bool) : Bool :=
  modPin == -2 || (decide (0 ≤ modPin) && !modLevel)

/-- Receive-mode branch of `BC7215::processData` (bc7215.cpp lines
497-586), one incoming byte. -/
def stepRx (s : BCState) (data : Nat) : BCState :=
  if data = 0x7a then
    let s1 :=
      if s.overLap then s
      else if s.previousData = 0x7a then
        -- 0x7a immediately after 0x7a: format-packet close (lines 504-519)
        let s2 := { s with dataPktReady := false }
        let s3 := if s.byteCount = formatPktSize then
            { s2 with formatPktReady := true }
          else s2
        if s.byteCount + s.datCount ≤ BC7215_BUFFER_SIZE ∧
            bufBackRead s.circularBuffer s.datEndPos 2 &&& 0x80 = 0 then
          { s3 with
            bitLen := bitLenField s.circularBuffer s.datEndPos
            dataPktReady := true }
        else s3
      else
        -- first 0x7a: data-packet close (lines 520-537)
        if bufBackRead s.circularBuffer s.lastWritingPos 2 &&& 0x80 = 0 then
          if (bitLenField s.circularBuffer s.lastWritingPos + 7) / 8 + 3 =
              s.byteCount then
            { s with
              bitLen := bitLenField s.circularBuffer s.lastWritingPos
              dataPktReady := true
              datStartPos := s.startPos
              datEndPos := s.lastWritingPos
              datCount := s.byteCount }
          else s
        else s
    { s1 with previousData := 0x7a, pktStarted := false }
  else
    -- non-terminator byte (lines 542-584)
    let s1 :=
      if s.pktStarted then s
      else
        let sp := (s.lastWritingPos + 1) % 256
        { s with
          pktStarted := true
          overLap := false
          byteCount := 0
          bitLen := 0
          dataPktReady := false
          formatPktReady := false
          startPos := if BC7215_BUFFER_SIZE ≤ sp then 0 else sp }
    if data = 0x7b then { s1 with previousData := 0x7b }
    else
      let d := if s1.previousData = 0x7b then data &&& 0x7f else data
      let wp0 := (s1.lastWritingPos + 1) % 256
      let wp := if BC7215_BUFFER_SIZE ≤ wp0 then 0 else wp0
      let bc := (s1.byteCount + 1) % 256
      { s1 with
        previousData := data
        lastWritingPos := wp
        circularBuffer := fun i => if i = wp then d else s1.circularBuffer i
        byteCount := bc
        overLap := if BC7215_BUFFER_SIZE < bc then true else s1.overLap }

/-- `BC7215::processData` (bc7215.cpp lines 481-587): in transmit wiring a
terminator only sets `cmdComplete`; otherwise the receive branch runs. -/
def processData (modPin : Int) (modLevel : Bool) (s : BCState) (data : Nat) :
    BCState :=
  if isTxWiring modPin modLevel then
    if data = 0x7a then { s with cmdComplete := true } else s
  else stepRx s data

/-- Receive-mode processing of a whole byte list, in arrival order. -/
def runRx (s : BCState) (bs : List Nat) : BCState :=
  bs.foldl stepRx s

/-- `BC7215::statusUpdate` (bc7215.cpp lines 473-479): drain every pending
UART byte through `processData`. -/
def statusUpdate (modPin : Int) (modLevel : Bool) (s : BCState)
    (pending : List Nat) : BCState :=
  pending.foldl (processData modPin modLevel) s

/-- `BC7215::isBusy` (bc7215.cpp lines 64-68). -/
def isBusy (modPin : Int) (modLevel : Bool) (s : BCState)
    (pending : List Nat) : Bool :=
  let s1 := statusUpdate modPin modLevel s pending
  if isTxWiring modPin modLevel then !s1.cmdComplete else s1.pktStarted

/-- `BC7215::cmdCompleted` (bc7215.cpp lines 294-298). -/
def cmdCompleted (modPin : Int) (modLevel : Bool) (s : BCState)
    (pending : List Nat) : Bool :=
  (statusUpdate modPin modLevel s pending).cmdComplete

/-- Flag effect of `BC7215::setTx` (bc7215.cpp lines 26-36). -/
def setTx (s : BCState) : BCState :=
  { s with
    dataPktReady := false
    formatPktReady := false
    pktStarted := false
    cmdComplete := true }

/-- Flag effect of `BC7215::setShutDown` (bc7215.cpp lines 46-54):
`cmdComplete` is cleared unconditionally. -/
def setShutDown (s : BCState) : BCState :=
  { s with cmdComplete := false }

/-- Bytes `BC7215::setShutDown` writes to the UART: the two-byte shutdown
command, but only when the MOD wiring reads transmit (line 48). -/
def setShutDownOutput (modPin : Int) (modLevel : Bool) : List Nat :=
  if isTxWiring modPin modLevel then [0xf7, 0x00] else []

/-- `BC7215::byteStuffingSend` (bc7215.cpp lines 449-460), as the list of
bytes put on the wire for one logical byte. -/
def byteStuffingSend (data : Nat) : List Nat :=
  if data = 0x7a ∨ data = 0x7b then [0x7b, data ||| 0x80] else [data]

/-- Caller-side data packet (`bc7215DataVarPkt_t`): a 16-bit length plus a
payload byte array, the array modelled as a total function. -/
structure DataVarPkt where
  bitLen : Nat
  data : Nat → Nat

/-- Core of `BC7215::getData` (bc7215.cpp lines 110-130), after the
`statusUpdate` drain: returns the status byte, the new driver state, and
the caller's packet.  The loop bound `datCount - 3` is the C `int`
expression `datCount - 3` clamped at zero (the `uint8_t` operand is
promoted to `int`, so a `datCount < 3` yields no iterations). -/
def getDataCore (s : BCState) (t : DataVarPkt) : Nat × BCState × DataVarPkt :=
  if s.dataPktReady then
    (bufBackRead s.circularBuffer s.datEndPos 2,
     { s with dataPktReady := false },
     { bitLen := s.bitLen
       data := fun i =>
         if i < s.datCount - 3 then bufRead s.circularBuffer s.datStartPos i
         else t.data i })
  else (0xff, s, t)

/-- `BC7215::getData` including the leading `statusUpdate` drain, taken in
receive wiring. -/
def getData (pending : List Nat) (s : BCState) (t : DataVarPkt) :
    Nat × BCState × DataVarPkt :=
  getDataCore (runRx s pending) t

/-- `BC7215::getRaw` (bc7215.cpp lines 138-160), with the copied-out bytes
returned as a list: yields the byte count actually written, the bytes, and
the new driver state. -/
def getRaw (s : BCState) (size : Nat) : Nat × List Nat × BCState :=
  if s.dataPktReady then
    let sz := if (s.bitLen + 7) / 8 < size then (s.bitLen + 7) / 8 else size
    (sz, (List.range sz).map (fun i => bufRead s.circularBuffer s.datStartPos i),
     { s with dataPktReady := false })
  else (0, [], s)

/-- The validation applied to a data packet when its terminator arrives
(bc7215.cpp lines 502, 522, 528): no overflow, the status byte two
positions back has its high (error) bit clear, and the byte count derived
from the trailing bit-length field matches the accumulated byte count. -/
def dataPacketValid (s : BCState) : Prop :=
  s.overLap = false ∧
  bufBackRead s.circularBuffer s.lastWritingPos 2 &&& 0x80 = 0 ∧
  (bitLenField s.circularBuffer s.lastWritingPos + 7) / 8 + 3 = s.byteCount

instance (s : BCState) : Decidable (dataPacketValid s) := by
  unfold dataPacketValid
  infer_instance

/-- Stream exhibiting a reachable state where `dataPktReady` holds but the
recorded `datCount` no longer matches the re-read bit-length field: a
valid 10-byte data packet (declared bit length 56), then a 70-byte packet
that fails validation, then a 14-byte packet that wraps around the buffer
and overwrites the first packet's trailer, then a failing terminator and
a second terminator that re-validates the stale data packet against the
overwritten bytes. -/
def c9Stream : List Nat :=
  [1, 2, 3, 4, 5, 6, 7, 0x00, 0x38, 0x00] ++ [0x7a] ++
    List.replicate 70 1 ++ [0x7a] ++ List.replicate 14 2 ++ [0x7a, 0x7a]

/-! ### Helper lemmas about single receive-mode steps -/

/-- The receive branch of `processData` never touches `cmdComplete`. -/
lemma stepRx_cmdComplete (s : BCState) (d : Nat) :
    (stepRx s d).cmdComplete = s.cmdComplete := by
  unfold stepRx
  dsimp only
  split <;> (try split) <;> (try split) <;> (try split) <;> (try split) <;> rfl

/-- Draining pending bytes in receive wiring never touches `cmdComplete`. -/
lemma statusUpdate_cmdComplete (modPin : Int) (modLevel : Bool)
    (pending : List Nat) (s : BCState)
    (hmp : isTxWiring modPin modLevel = false) :
    (statusUpdate modPin modLevel s pending).cmdComplete = s.cmdComplete := by
  induction pending generalizing s with
  | nil => rfl
  | cons b tl ih =>
    have hstep : processData modPin modLevel s b = stepRx s b := by
      simp [processData, hmp]
    calc (statusUpdate modPin modLevel s (b :: tl)).cmdComplete
        = (statusUpdate modPin modLevel (processData modPin modLevel s b) tl).cmdComplete := rfl
      _ = (processData modPin modLevel s b).cmdComplete := ih _
      _ = s.cmdComplete := by rw [hstep, stepRx_cmdComplete]

/-- A terminator byte always records itself in `previousData` and ends the
packet in progress (bc7215.cpp lines 539-540). -/
lemma stepRx_term_pktStarted (s : BCState) : (stepRx s 0x7a).pktStarted = false :=
  rfl

/-- A terminator byte always sets `previousData` to the terminator value. -/
lemma stepRx_term_previousData (s : BCState) :
    (stepRx s 0x7a).previousData = 0x7a :=
  rfl

/-- A non-terminator byte leaves `dataPktReady` alone while a packet is in
progress, and clears it when it opens a new packet. -/
lemma stepRx_nonterm_dataPktReady (s : BCState) (d : Nat) (hda : d ≠ 0x7a) :
    (stepRx s d).dataPktReady = (s.pktStarted && s.dataPktReady) := by
  by_cases hps : s.pktStarted = true <;> by_cases hb : d = 0x7b <;>
    simp [stepRx, hda, hps, hb, Bool.not_eq_true]

/-- Invariant of the receive state machine: while a packet is accumulating
the data-ready flag is down, and a raised data-ready flag always has the
terminator recorded as the previous byte. -/
def framingInv (s : BCState) : Prop :=
  (s.pktStarted = true → s.dataPktReady = false) ∧
  (s.dataPktReady = true → s.previousData = 0x7a)

lemma stepRx_framingInv (s : BCState) (d : Nat) (h : framingInv s) :
    framingInv (stepRx s d) := by
  obtain ⟨h1, h2⟩ := h
  by_cases hda : d = 0x7a
  · subst hda
    refine ⟨fun hps => ?_, fun _ => stepRx_term_previousData s⟩
    rw [stepRx_term_pktStarted] at hps
    exact absurd hps (by simp)
  · have hdp := stepRx_nonterm_dataPktReady s d hda
    constructor
    · intro _
      rw [hdp]
      by_cases hps : s.pktStarted = true
      · simp [hps, h1 hps]
      · simp [Bool.not_eq_true] at hps
        simp [hps]
    · intro hdp'
      rw [hdp] at hdp'
      simp only [Bool.and_eq_true] at hdp'
      exact absurd (h1 hdp'.1) (by simp [hdp'.2])

lemma runRx_framingInv (bs : List Nat) (s : BCState) (h : framingInv s) :
    framingInv (runRx s bs) := by
  induction bs generalizing s with
  | nil => exact h
  | cons b tl ih => exact ih (stepRx s b) (stepRx_framingInv s b h)

lemma initState_framingInv : framingInv initState :=
  ⟨fun _ => rfl, fun h => Bool.noConfusion h⟩

/-- Full description of the first-terminator (data-packet-closing) step
from any state whose previous byte was not a terminator and whose
data-ready flag is down: validation follows `dataPacketValid`, and the
state is updated exactly as bc7215.cpp lines 520-541 prescribe. -/
lemma stepRx_dataTerm (s : BCState) (hp : s.previousData ≠ 0x7a)
    (hd : s.dataPktReady = false) :
    ((stepRx s 0x7a).dataPktReady = true ↔ dataPacketValid s) ∧
    (dataPacketValid s →
      stepRx s 0x7a =
        { s with
          bitLen := bitLenField s.circularBuffer s.lastWritingPos
          dataPktReady := true
          datStartPos := s.startPos
          datEndPos := s.lastWritingPos
          datCount := s.byteCount
          previousData := 0x7a
          pktStarted := false }) ∧
    (¬ dataPacketValid s →
      stepRx s 0x7a = { s with previousData := 0x7a, pktStarted := false }) := by
  by_cases ho : s.overLap = true
  · have hnv : ¬ dataPacketValid s := by simp [dataPacketValid, ho]
    have he : stepRx s 0x7a = { s with previousData := 0x7a, pktStarted := false } := by
      simp [stepRx, ho, hp]
    refine ⟨?_, fun hv => absurd hv hnv, fun _ => he⟩
    rw [he]
    simp only [hd]
    simp [hnv]
  · have ho' : s.overLap = false := by simpa [Bool.not_eq_true] using ho
    by_cases hst : bufBackRead s.circularBuffer s.lastWritingPos 2 &&& 0x80 = 0
    · by_cases hcnt :
        (bitLenField s.circularBuffer s.lastWritingPos + 7) / 8 + 3 = s.byteCount
      · have hv : dataPacketValid s := ⟨ho', hst, hcnt⟩
        have he : stepRx s 0x7a =
            { s with
              bitLen := bitLenField s.circularBuffer s.lastWritingPos
              dataPktReady := true
              datStartPos := s.startPos
              datEndPos := s.lastWritingPos
              datCount := s.byteCount
              previousData := 0x7a
              pktStarted := false } := by
          simp [stepRx, ho', hp, hst, hcnt]
        refine ⟨?_, fun _ => he, fun hnv => absurd hv hnv⟩
        rw [he]
        simp [hv]
      · have hnv : ¬ dataPacketValid s := fun hv => hcnt hv.2.2
        have he : stepRx s 0x7a = { s with previousData := 0x7a, pktStarted := false } := by
          simp [stepRx, ho', hp, hst, hcnt]
        refine ⟨?_, fun hv => absurd hv hnv, fun _ => he⟩
        rw [he]
        simp only [hd]
        simp [hnv]
    · have hnv : ¬ dataPacketValid s := fun hv => hst hv.2.1
      have he : stepRx s 0x7a = { s with previousData := 0x7a, pktStarted := false } := by
        simp [stepRx, ho', hp, hst]
      refine ⟨?_, fun hv => absurd hv hnv, fun _ => he⟩
      rw [he]
      simp only [hd]
      simp [hnv]

/-! ### Claim theorems: mode controller -/

/-- C4: while the chip is wired for transmit (MOD hard-wired low or a real
MOD pin reading low), a terminator byte only sets `cmdComplete` and any
other byte changes nothing; in receive wiring the same byte goes through
the framing state machine, where a terminator closes the packet in
progress (`pktStarted` falls, `previousData` records the terminator) and
`cmdComplete` is not touched. -/
theorem bc7215_C4 (modPin : Int) (modLevel : Bool) (s : BCState) (d : Nat) :
    (isTxWiring modPin modLevel = true →
      processData modPin modLevel s d =
        if d = 0x7a then { s with cmdComplete := true } else s) ∧
    (isTxWiring modPin modLevel = false →
      processData modPin modLevel s d = stepRx s d) ∧
    ((stepRx s 0x7a).pktStarted = false ∧
      (stepRx s 0x7a).previousData = 0x7a ∧
      (stepRx s 0x7a).cmdComplete = s.cmdComplete) := by
  exact ⟨fun h => by simp [processData, h], fun h => by simp [processData, h],
    rfl, rfl, stepRx_cmdComplete s 0x7a⟩

/-- C4 witness at a concrete transmit configuration and a concrete
receive step. -/
theorem bc7215_C4_witness :
    processData (-2) false initState 0x7a = { initState with cmdComplete := true } ∧
    (stepRx initState 0x7a).pktStarted = false := by
  have h := bc7215_C4 (-2) false initState 0x7a
  refine ⟨?_, (h.2.2).1⟩
  have h1 := h.1 (by decide)
  rw [h1]
  simp

/-- C6: `isBusy` first drains the pending UART bytes through the state
machine, then in transmit wiring (MOD hard-wired low, or a real MOD pin
reading low) answers with the negated `cmdComplete` flag, and in every
other wiring answers with the packet-in-progress flag. -/
theorem bc7215_C6 (modPin : Int) (modLevel : Bool) (s : BCState)
    (pending : List Nat) :
    (isTxWiring modPin modLevel = true ↔
      (modPin = -2 ∨ (0 ≤ modPin ∧ modLevel = false))) ∧
    (isTxWiring modPin modLevel = true →
      isBusy modPin modLevel s pending =
        !(statusUpdate modPin modLevel s pending).cmdComplete) ∧
    (isTxWiring modPin modLevel = false →
      isBusy modPin modLevel s pending =
        (statusUpdate modPin modLevel s pending).pktStarted) := by
  refine ⟨?_, fun h => by simp [isBusy, h], fun h => by simp [isBusy, h]⟩
  simp [isTxWiring, Bool.or_eq_true, Bool.and_eq_true, decide_eq_true_eq,
    beq_iff_eq, Bool.not_eq_true']

/-- C6 witness: a transmit instance and a receive instance, with a pending
terminator byte drained in both. -/
theorem bc7215_C6_witness :
    isBusy (-2) false initState [0x7a] =
      !(statusUpdate (-2) false initState [0x7a]).cmdComplete ∧
    isBusy (-1) true initState [0x41] =
      (statusUpdate (-1) true initState [0x41]).pktStarted := by
  exact ⟨(bc7215_C6 (-2) false initState [0x7a]).2.1 (by decide),
    (bc7215_C6 (-1) true initState [0x41]).2.2 (by decide)⟩

/-- C7 counterexample: the claim asserts `setTx` clears the overflow flag,
but `BC7215::setTx` (bc7215.cpp lines 26-36) only clears `dataPktReady`,
`formatPktReady` and `pktStarted`.  After 85 buffered bytes the overflow
flag is set, and it survives `setTx`. -/
theorem bc7215_C7_cex :
    (runRx initState (List.replicate 85 0x41)).overLap = true ∧
    (setTx (runRx initState (List.replicate 85 0x41))).overLap = true := by
  exact ⟨by decide, by decide⟩

/-- C7 (amended): `setTx` resets the data-ready, format-ready and
packet-in-progress flags and sets `cmdComplete`; the overflow flag (and
all other receive bookkeeping) is left unchanged. -/
theorem bc7215_C7 (s : BCState) :
    (setTx s).dataPktReady = false ∧ (setTx s).formatPktReady = false ∧
    (setTx s).pktStarted = false ∧ (setTx s).cmdComplete = true ∧
    (setTx s).overLap = s.overLap ∧ (setTx s).bitLen = s.bitLen ∧
    (setTx s).circularBuffer = s.circularBuffer ∧
    (setTx s).byteCount = s.byteCount :=
  ⟨rfl, rfl, rfl, rfl, rfl, rfl, rfl, rfl⟩

/-- C10: `setShutDown` clears `cmdComplete` unconditionally; in receive
wiring no shutdown bytes are emitted and a later `cmdCompleted` query
still answers false for any drained byte stream, because the receive
branch of `processData` never sets `cmdComplete`; only a terminator in
transmit wiring, or `setTx`, raises the flag again. -/
theorem bc7215_C10 (modPin : Int) (modLevel : Bool) (s : BCState) (d : Nat)
    (pending : List Nat) :
    (setShutDown s).cmdComplete = false ∧
    (isTxWiring modPin modLevel = false →
      setShutDownOutput modPin modLevel = []) ∧
    (isTxWiring modPin modLevel = false →
      cmdCompleted modPin modLevel (setShutDown s) pending = false) ∧
    ((stepRx s d).cmdComplete = s.cmdComplete) ∧
    (isTxWiring modPin modLevel = true →
      (processData modPin modLevel s 0x7a).cmdComplete = true) ∧
    ((setTx s).cmdComplete = true) := by
  refine ⟨rfl, fun h => by simp [setShutDownOutput, h], fun h => ?_,
    stepRx_cmdComplete s d, fun h => by simp [processData, h], rfl⟩
  unfold cmdCompleted
  rw [statusUpdate_cmdComplete modPin modLevel pending _ h]
  rfl

/-- C10 witness: MOD hard-wired high (receive wiring), a pending
terminator byte does not revive `cmdComplete` after `setShutDown`. -/
theorem bc7215_C10_witness :
    cmdCompleted (-1) true (setShutDown initState) [0x7a] = false := by
  exact (bc7215_C10 (-1) true initState 0 [0x7a]).2.2.1 (by decide)

/-! ### Claim theorems: framing state machine -/

/-- C1: after any receive-mode byte sequence, a terminator that does not
immediately follow another terminator marks the packet data-ready exactly
when the overflow flag is down, the status byte two positions behind the
last write has its high error bit clear, and the byte count recomputed
from the trailing bit-length field equals the accumulated byte count; the
validated packet's start and end positions, byte count and bit length are
then recorded, and on a failed validation the packet is discarded with no
state change beyond closing the frame. -/
theorem bc7215_C1 (bs : List Nat)
    (hp : (runRx initState bs).previousData ≠ 0x7a) :
    ((stepRx (runRx initState bs) 0x7a).dataPktReady = true ↔
      dataPacketValid (runRx initState bs)) ∧
    (dataPacketValid (runRx initState bs) →
      stepRx (runRx initState bs) 0x7a =
        { runRx initState bs with
          bitLen := bitLenField (runRx initState bs).circularBuffer
            (runRx initState bs).lastWritingPos
          dataPktReady := true
          datStartPos := (runRx initState bs).startPos
          datEndPos := (runRx initState bs).lastWritingPos
          datCount := (runRx initState bs).byteCount
          previousData := 0x7a
          pktStarted := false }) ∧
    (¬ dataPacketValid (runRx initState bs) →
      stepRx (runRx initState bs) 0x7a =
        { runRx initState bs with previousData := 0x7a, pktStarted := false }) := by
  have hinv := runRx_framingInv bs initState initState_framingInv
  have hd : (runRx initState bs).dataPktReady = false := by
    cases hq : (runRx initState bs).dataPktReady with
    | false => rfl
    | true => exact absurd (hinv.2 hq) hp
  exact stepRx_dataTerm _ hp hd

/-- C1 witness: the four bytes of a valid 2-bit data packet make the
closing terminator raise data-ready. -/
theorem bc7215_C1_witness :
    (stepRx (runRx initState [0xFF, 0x00, 0x02, 0x00]) 0x7a).dataPktReady = true := by
  exact (bc7215_C1 [0xFF, 0x00, 0x02, 0x00] (by decide)).1.mpr (by decide)

/-- Closing a packet with a terminator never changes the overflow flag
(the whole validation block is guarded by it, bc7215.cpp line 502). -/
lemma stepRx_term_overLap (s : BCState) : (stepRx s 0x7a).overLap = s.overLap := by
  unfold stepRx
  rw [if_pos rfl]
  dsimp only
  split <;> (try split) <;> (try split) <;> (try split) <;> rfl

/-- C2: the stuffing codec escapes exactly the two sentinel bytes as
`0x7B, b | 0x80` and passes every other byte through unchanged, and
feeding the encoding of any byte through the receive-mode destuffing
writes exactly that byte back into the circular buffer, advancing the
byte count by one. -/
theorem bc7215_C2 (b : Nat) (hb : b ≤ 255) :
    (b = 0x7a ∨ b = 0x7b → byteStuffingSend b = [0x7b, b ||| 0x80]) ∧
    (¬(b = 0x7a ∨ b = 0x7b) → byteStuffingSend b = [b]) ∧
    (∀ s : BCState, s.pktStarted = true → s.previousData ≠ 0x7b →
      (runRx s (byteStuffingSend b)).circularBuffer
          (runRx s (byteStuffingSend b)).lastWritingPos = b ∧
        (runRx s (byteStuffingSend b)).byteCount = (s.byteCount + 1) % 256) := by
  refine ⟨fun h => by simp [byteStuffingSend, h],
    fun h => by simp [byteStuffingSend, h], fun s hps hpd => ?_⟩
  by_cases hesc : b = 0x7a ∨ b = 0x7b
  · rcases hesc with h | h <;> subst h <;>
      constructor <;>
      · simp [byteStuffingSend, runRx, stepRx, hps, hpd]
        try decide
  · push_neg at hesc
    exact ⟨by simp [byteStuffingSend, hesc.1, hesc.2, runRx, stepRx, hps, hpd],
      by simp [byteStuffingSend, hesc.1, hesc.2, runRx, stepRx, hps, hpd]⟩

/-- C2 witness: the escaped terminator byte round-trips into the buffer
from a mid-packet state. -/
theorem bc7215_C2_witness :
    (runRx (stepRx initState 0x41) (byteStuffingSend 0x7a)).circularBuffer
        (runRx (stepRx initState 0x41) (byteStuffingSend 0x7a)).lastWritingPos
      = 0x7a := by
  exact ((bc7215_C2 0x7a (by decide)).2.2 (stepRx initState 0x41)
    (by decide) (by decide)).1

/-- C5 counterexample: 86 non-terminator bytes fed before any terminator
(43 escape pairs) exceed the 84-byte capacity, yet the overflow flag is
still down, because escape-prefix bytes are skipped by the destuffer and
never counted: only 43 bytes were stored. -/
theorem bc7215_C5_cex :
    (List.flatten (List.replicate 43 [0x7b, 0x41])).length = 86 ∧
    86 > BC7215_BUFFER_SIZE ∧
    (∀ b ∈ List.flatten (List.replicate 43 [0x7b, 0x41]), b ≠ 0x7a) ∧
    (runRx initState (List.flatten (List.replicate 43 [0x7b, 0x41]))).pktStarted = true ∧
    (runRx initState (List.flatten (List.replicate 43 [0x7b, 0x41]))).byteCount = 43 ∧
    (runRx initState (List.flatten (List.replicate 43 [0x7b, 0x41]))).overLap = false :=
  ⟨by decide, by decide, by decide, by decide, by decide, by decide⟩

/-- C5 (amended): once the number of bytes actually stored into the buffer
since the packet's start (escape-prefix bytes are skipped and not
counted) exceeds `BC7215_BUFFER_SIZE` the overflow flag is set; while it
is set a terminator leaves the data-ready and format-ready flags exactly
as they were and keeps the overflow flag, a stored byte inside the same
packet keeps it as well, and the only step that can lower it is a
non-terminator byte starting a new packet. -/
theorem bc7215_C5 (s : BCState) (d : Nat) :
    (s.pktStarted = true → d ≠ 0x7a → d ≠ 0x7b →
      BC7215_BUFFER_SIZE < (s.byteCount + 1) % 256 → (stepRx s d).overLap = true) ∧
    (s.overLap = true →
      (stepRx s 0x7a).dataPktReady = s.dataPktReady ∧
      (stepRx s 0x7a).formatPktReady = s.formatPktReady ∧
      (stepRx s 0x7a).overLap = true) ∧
    (s.overLap = true → s.pktStarted = true → d ≠ 0x7a →
      (stepRx s d).overLap = true) ∧
    ((stepRx s d).overLap = false →
      s.overLap = false ∨ (d ≠ 0x7a ∧ s.pktStarted = false)) := by
  refine ⟨fun hps hda hdb hover => ?_, fun ho => ?_, fun ho hps hda => ?_,
    fun hfall => ?_⟩
  · simp [stepRx, hda, hdb, hps, hover]
  · have he : stepRx s 0x7a = { s with previousData := 0x7a, pktStarted := false } := by
      simp [stepRx, ho]
    rw [he]
    exact ⟨rfl, rfl, ho⟩
  · by_cases hb : d = 0x7b <;> simp [stepRx, hda, hb, hps, ho]
  · by_cases hda : d = 0x7a
    · subst hda
      left
      rw [← stepRx_term_overLap s]
      exact hfall
    · by_cases hps : s.pktStarted = true
      · left
        by_cases hb : d = 0x7b
        · simpa [stepRx, hda, hb, hps] using hfall
        · simp only [stepRx, hda, hb, hps] at hfall
          simp at hfall
          exact hfall.2
      · right
        exact ⟨hda, by simpa [Bool.not_eq_true] using hps⟩

/-- C5 witness: after overflowing a packet with 85 stored bytes, a
terminator changes neither ready flag and keeps the overflow flag up. -/
theorem bc7215_C5_witness :
    (stepRx (runRx initState (List.replicate 85 0x41)) 0x7a).formatPktReady
        = (runRx initState (List.replicate 85 0x41)).formatPktReady ∧
      (stepRx (runRx initState (List.replicate 85 0x41)) 0x7a).overLap = true := by
  have h := (bc7215_C5 (runRx initState (List.replicate 85 0x41)) 0).2.1 (by decide)
  exact ⟨h.2.1, h.2.2⟩

/-- C8 counterexample: the stream of the claim, with the two-byte length
field in front, is rejected: the code recomputes the expected byte count
from the LAST two buffered bytes (high byte last), which here read
`0x00FF`, so the count check fails and data-ready stays down. -/
theorem bc7215_C8_cex :
    (runRx initState [0x00, 0x02, 0xFF, 0x00, 0x7a]).dataPktReady = false := by
  decide

/-- C8 (amended): with the bit-length field at the END of the packet as
the code reads it (payload `0xFF`, status `0x00`, length low byte `0x02`,
length high byte `0x00`), the closing terminator finds byte count
4 = ceil(2/8)+3 with the status error bit clear, marks data-ready with
bit length 2, and the payload byte `0xFF` is retrievable. -/
theorem bc7215_C8 :
    (runRx initState [0xFF, 0x00, 0x02, 0x00, 0x7a]).dataPktReady = true ∧
    (runRx initState [0xFF, 0x00, 0x02, 0x00, 0x7a]).bitLen = 2 ∧
    (runRx initState [0xFF, 0x00, 0x02, 0x00, 0x7a]).datCount = 4 ∧
    bufBackRead (runRx initState [0xFF, 0x00, 0x02, 0x00, 0x7a]).circularBuffer
        (runRx initState [0xFF, 0x00, 0x02, 0x00, 0x7a]).datEndPos 2 &&& 0x80 = 0 ∧
    (getRaw (runRx initState [0xFF, 0x00, 0x02, 0x00, 0x7a]) 1).1 = 1 ∧
    (getRaw (runRx initState [0xFF, 0x00, 0x02, 0x00, 0x7a]) 1).2.1 = [0xFF] :=
  ⟨by decide, by decide, by decide, by decide, by decide, by decide⟩

/-- Running a list of plain bytes (no terminator, no escape) through the
receive machine from a mid-packet state with no pending escape: the packet
keeps accumulating, no flag moves, and the byte count grows by the number
of bytes, provided capacity is not exceeded. -/
lemma runRx_plain (bs : List Nat) (s : BCState)
    (hb : ∀ b ∈ bs, b ≠ 0x7a ∧ b ≠ 0x7b)
    (hps : s.pktStarted = true) (hov : s.overLap = false)
    (hf : s.formatPktReady = false) (hd : s.dataPktReady = false)
    (hpa : s.previousData ≠ 0x7a) (hpb : s.previousData ≠ 0x7b)
    (hcap : s.byteCount + bs.length ≤ BC7215_BUFFER_SIZE) :
    (runRx s bs).pktStarted = true ∧ (runRx s bs).overLap = false ∧
    (runRx s bs).formatPktReady = false ∧ (runRx s bs).dataPktReady = false ∧
    (runRx s bs).previousData ≠ 0x7a ∧ (runRx s bs).previousData ≠ 0x7b ∧
    (runRx s bs).byteCount = s.byteCount + bs.length := by
  induction bs generalizing s with
  | nil => exact ⟨hps, hov, hf, hd, hpa, hpb, rfl⟩
  | cons b tl ih =>
    obtain ⟨hba, hbb⟩ := hb b (by simp)
    have hb' : ∀ x ∈ tl, x ≠ 0x7a ∧ x ≠ 0x7b := fun x hx => hb x (by simp [hx])
    have hcap1 : s.byteCount + 1 ≤ BC7215_BUFFER_SIZE := by
      simp only [List.length_cons] at hcap
      omega
    have hmod : (s.byteCount + 1) % 256 = s.byteCount + 1 := by
      have : BC7215_BUFFER_SIZE = 84 := rfl
      omega
    have h1ps : (stepRx s b).pktStarted = true := by simp [stepRx, hba, hbb, hps]
    have h1ov : (stepRx s b).overLap = false := by
      simp [stepRx, hba, hbb, hps, hov, hmod]
      omega
    have h1f : (stepRx s b).formatPktReady = false := by
      simp [stepRx, hba, hbb, hps, hf]
    have h1d : (stepRx s b).dataPktReady = false := by
      simp [stepRx, hba, hbb, hps, hd]
    have h1pd : (stepRx s b).previousData = b := by simp [stepRx, hba, hbb, hps]
    have h1bc : (stepRx s b).byteCount = s.byteCount + 1 := by
      simp [stepRx, hba, hbb, hps, hmod]
    have hcap' : (stepRx s b).byteCount + tl.length ≤ BC7215_BUFFER_SIZE := by
      rw [h1bc]
      simp only [List.length_cons] at hcap
      omega
    have hrun : runRx s (b :: tl) = runRx (stepRx s b) tl := rfl
    obtain ⟨r1, r2, r3, r4, r5, r6, r7⟩ :=
      ih (stepRx s b) hb' h1ps h1ov h1f h1d (by rw [h1pd]; exact hba)
        (by rw [h1pd]; exact hbb) hcap'
    refine ⟨by rw [hrun]; exact r1, by rw [hrun]; exact r2, by rw [hrun]; exact r3,
      by rw [hrun]; exact r4, by rw [hrun]; exact r5, by rw [hrun]; exact r6, ?_⟩
    rw [hrun, r7, h1bc]
    simp only [List.length_cons]
    omega

/-- The double-terminator (format-packet-closing) step: from a state with
the overflow flag down and a terminator as previous byte, the format-ready
flag afterwards is up exactly when it already was or the accumulated byte
count equals the 33-byte format packet size (bc7215.cpp lines 504-519). -/
lemma stepRx_doubleTerm (s : BCState) (ho : s.overLap = false)
    (hp : s.previousData = 0x7a) :
    ((stepRx s 0x7a).formatPktReady = true ↔
      (s.formatPktReady = true ∨ s.byteCount = formatPktSize)) := by
  by_cases hc : s.byteCount = formatPktSize
  · have hr : (stepRx s 0x7a).formatPktReady = true := by
      simp only [stepRx, ho, hp, hc]
      simp
      split <;> simp
    simp [hr, hc]
  · by_cases hg : s.byteCount + s.datCount ≤ BC7215_BUFFER_SIZE ∧
      bufBackRead s.circularBuffer s.datEndPos 2 &&& 0x80 = 0 <;>
    simp [stepRx, ho, hp, hc, hg]

/-- C3: in receive mode without overflow, a double terminator raises
format-ready exactly when the closed packet accumulated exactly the
33-byte format packet size; in particular, from the initial state, a
stream of plain payload bytes followed by two terminators raises
format-ready exactly when there were 33 of them. -/
theorem bc7215_C3 :
    (∀ bs : List Nat, (∀ b ∈ bs, b ≠ 0x7a ∧ b ≠ 0x7b) →
      bs.length ≤ BC7215_BUFFER_SIZE →
      ((runRx initState (bs ++ [0x7a, 0x7a])).formatPktReady = true ↔
        bs.length = formatPktSize)) ∧
    (∀ s : BCState, s.overLap = false → s.previousData = 0x7a →
      s.formatPktReady = false →
      ((stepRx s 0x7a).formatPktReady = true ↔ s.byteCount = formatPktSize)) := by
  constructor
  · intro bs hb hlen
    cases bs with
    | nil => decide
    | cons b tl =>
      obtain ⟨hba, hbb⟩ := hb b (by simp)
      have hb' : ∀ x ∈ tl, x ≠ 0x7a ∧ x ≠ 0x7b := fun x hx => hb x (by simp [hx])
      have h1ps : (stepRx initState b).pktStarted = true := by
        simp [stepRx, initState, hba, hbb]
      have h1ov : (stepRx initState b).overLap = false := by
        simp [stepRx, initState, hba, hbb, BC7215_BUFFER_SIZE, BC7215_MAX_RX_DATA_SIZE]
      have h1f : (stepRx initState b).formatPktReady = false := by
        simp [stepRx, initState, hba, hbb]
      have h1d : (stepRx initState b).dataPktReady = false := by
        simp [stepRx, initState, hba, hbb]
      have h1pd : (stepRx initState b).previousData = b := by
        simp [stepRx, initState, hba, hbb]
      have h1bc : (stepRx initState b).byteCount = 1 := by
        simp [stepRx, initState, hba, hbb]
      have hcap' : (stepRx initState b).byteCount + tl.length ≤ BC7215_BUFFER_SIZE := by
        rw [h1bc]
        simp only [List.length_cons] at hlen
        omega
      obtain ⟨r1, r2, r3, r4, r5, r6, r7⟩ :=
        runRx_plain tl (stepRx initState b) hb' h1ps h1ov h1f h1d
          (by rw [h1pd]; exact hba) (by rw [h1pd]; exact hbb) hcap'
      have hdt := stepRx_dataTerm (runRx (stepRx initState b) tl) r5 r4
      have h3f : (stepRx (runRx (stepRx initState b) tl) 0x7a).formatPktReady = false := by
        by_cases hv : dataPacketValid (runRx (stepRx initState b) tl)
        · rw [hdt.2.1 hv]; exact r3
        · rw [hdt.2.2 hv]; exact r3
      have h3ov : (stepRx (runRx (stepRx initState b) tl) 0x7a).overLap = false := by
        rw [stepRx_term_overLap]; exact r2
      have h3bc : (stepRx (runRx (stepRx initState b) tl) 0x7a).byteCount =
          (runRx (stepRx initState b) tl).byteCount := by
        by_cases hv : dataPacketValid (runRx (stepRx initState b) tl)
        · rw [hdt.2.1 hv]
        · rw [hdt.2.2 hv]
      have happ : runRx initState ((b :: tl) ++ [0x7a, 0x7a]) =
          stepRx (stepRx (runRx (stepRx initState b) tl) 0x7a) 0x7a := by
        simp [runRx, List.foldl_append]
      rw [happ,
        stepRx_doubleTerm _ h3ov (stepRx_term_previousData _),
        h3f, h3bc, r7, h1bc]
      simp only [List.length_cons, formatPktSize]
      constructor
      · rintro (h | h)
        · exact Bool.noConfusion h
        · omega
      · intro h; right; omega
  · intro s ho hp hf
    rw [stepRx_doubleTerm s ho hp, hf]
    simp

/-- C3 witness: 33 plain bytes then a double terminator raise
format-ready. -/
theorem bc7215_C3_witness :
    (runRx initState (List.replicate 33 0x41 ++ [0x7a, 0x7a])).formatPktReady = true := by
  exact (bc7215_C3.1 (List.replicate 33 0x41) (by decide) (by decide)).mpr (by decide)

/-- C9 counterexample: a reachable state (stream `c9Stream`) has the
data-ready flag up with recorded bit length 514, yet `getData` copies
only `datCount - 3 = 7` payload bytes: index 6 receives a buffer byte
while index 7, although well inside `(bitLength+7)/8 = 65`, keeps the
caller's sentinel value. -/
theorem bc7215_C9_cex :
    (runRx initState c9Stream).dataPktReady = true ∧
    (getDataCore (runRx initState c9Stream) ⟨0, fun _ => 999⟩).2.2.bitLen = 514 ∧
    7 < ((getDataCore (runRx initState c9Stream) ⟨0, fun _ => 999⟩).2.2.bitLen + 7) / 8 ∧
    (getDataCore (runRx initState c9Stream) ⟨0, fun _ => 999⟩).2.2.data 6 = 2 ∧
    (getDataCore (runRx initState c9Stream) ⟨0, fun _ => 999⟩).2.2.data 7 = 999 :=
  ⟨by decide, by decide, by decide, by decide, by decide⟩

/-- C9 (amended): after draining pending bytes, `getData` returns `0xFF`
and leaves the target untouched when data-ready is down; when it is up,
it returns the packet's trailing status byte, clears the flag, and copies
the bit length plus exactly `datCount - 3` payload bytes (the byte count
recorded when the packet was validated, minus the three trailer bytes)
into the target, leaving the rest of the target unchanged. -/
theorem bc7215_C9 (pending : List Nat) (s : BCState) (t : DataVarPkt) :
    ((runRx s pending).dataPktReady = false →
      getData pending s t = (0xff, runRx s pending, t)) ∧
    ((runRx s pending).dataPktReady = true →
      getData pending s t =
        (bufBackRead (runRx s pending).circularBuffer (runRx s pending).datEndPos 2,
         { runRx s pending with dataPktReady := false },
         { bitLen := (runRx s pending).bitLen
           data := fun i =>
             if i < (runRx s pending).datCount - 3 then
               bufRead (runRx s pending).circularBuffer (runRx s pending).datStartPos i
             else t.data i })) := by
  constructor <;> intro h <;> simp [getData, getDataCore, h]

/-- C9 witness: the valid 2-bit packet stream drained inside `getData`
yields the ready-path result. -/
theorem bc7215_C9_witness :
    getData [0xFF, 0x00, 0x02, 0x00, 0x7a] initState ⟨0, fun _ => 0⟩ =
      (bufBackRead (runRx initState [0xFF, 0x00, 0x02, 0x00, 0x7a]).circularBuffer
         (runRx initState [0xFF, 0x00, 0x02, 0x00, 0x7a]).datEndPos 2,
       { runRx initState [0xFF, 0x00, 0x02, 0x00, 0x7a] with dataPktReady := false },
       { bitLen := (runRx initState [0xFF, 0x00, 0x02, 0x00, 0x7a]).bitLen
         data := fun i =>
           if i < (runRx initState [0xFF, 0x00, 0x02, 0x00, 0x7a]).datCount - 3 then
             bufRead (runRx initState [0xFF, 0x00, 0x02, 0x00, 0x7a]).circularBuffer
               (runRx initState [0xFF, 0x00, 0x02, 0x00, 0x7a]).datStartPos i
           else 0 }) := by
  exact (bc7215_C9 [0xFF, 0x00, 0x02, 0x00, 0x7a] initState ⟨0, fun _ => 0⟩).2 (by decide)

end BC7215Model
